import Mathlib

/-!
Verification of the docker executor of the `box` image builder
(`builder/executor/docker/docker.go`).

The container engine (the docker daemon reached through the docker client)
is an external collaborator of this code: we model it as an explicit state
(`Engine`: the set of live containers and the list of committed images)
plus, where a call's outcome is genuinely external nondeterminism (which id
a create returns, whether a commit fails, the bytes of the import response
stream), an explicit outcome record passed into the embedded function.
Every embedded function threads the engine state and returns its error
result explicitly, mirroring the Go control flow statement by statement.
-/

/-- The container run-configuration carried by `config.Config`
(environment, command, working directory, exposed ports).  The `config`
package is outside the verified sources; its payload is opaque here and
only moved around wholesale, matching how `docker.go` uses it. -/
structure ContainerCfg where
  env : List String
  cmd : List String
  workdir : String
  ports : List String
deriving DecidableEq, Repr

/-- `config.Config` as `docker.go` sees it: the current resulting image id
(`Config.Image`) plus the container run-configuration. -/
structure Config where
  image : String
  container : ContainerCfg
deriving DecidableEq, Repr

/-- The `Docker` executor struct (docker.go lines 30-36), minus the client
handle which is replaced by explicit engine state threading. -/
structure Docker where
  useCache : Bool
  tty : Bool
  stdin : Bool
  config : Config
deriving DecidableEq, Repr

/-- One engine-side image as surfaced by `ImageList` (id, parent) together
with what `ImageInspectWithRaw` reports for it (comment, config).  In the
engine, an image id identifies one record, so inspecting a listed image's
id yields that image's record; the inspect-error branch of the Go code is
therefore never taken in this model. -/
structure ImageRecord where
  id : String
  parentID : String
  comment : String
  cfg : ContainerCfg
deriving DecidableEq, Repr

/-- The engine state: ids of live containers and committed images. -/
structure Engine where
  containers : List String
  images : List ImageRecord
deriving DecidableEq, Repr

/-- Modelled from the spec: `config.FromDocker` is outside the verified
sources; per the spec it merges an image's recorded config into the build
state, i.e. the stored container configuration is replaced by the recorded
one (the image id field is managed separately by the callers). -/
def Config.fromDocker (c : Config) (dc : ContainerCfg) : Config :=
  { c with container := dc }

/-- The image-scan loop of `Docker.CheckCache` (docker.go lines 150-164):
walk the engine listing; for an image whose parent is `parent`, inspect it
and compare its comment against the cache key; first match wins. -/
def cacheScan : List ImageRecord → String → String → Option ImageRecord
  | [], _, _ => none
  | img :: rest, parent, ck =>
    if img.parentID = parent then
      if img.comment = ck then some img
      else cacheScan rest parent ck
    else cacheScan rest parent ck

/-- `Docker.CheckCache` (docker.go lines 139-168).  Returns the hit flag
and the (possibly updated) executor: on a hit the matched image's config
is merged via `FromDocker` and its id becomes `Config.Image`. -/
def checkCache (d : Docker) (ck : String) (images : List ImageRecord) : Bool × Docker :=
  if !d.useCache then (false, d)
  else if d.config.image ≠ "" then
    match cacheScan images d.config.image ck with
    | some img =>
        (true, { d with config := { (d.config.fromDocker img.cfg) with image := img.id } })
    | none => (false, d)
  else (false, d)

/-- Modelled from the spec: the engine's `ContainerRemove` with
`Force: true` is a call into the external container engine; per the spec's
engine contract it force-removes the container and tolerates an
already-absent id as success.  After the call the id no longer exists. -/
def forceRemove (e : Engine) (id : String) : Engine × Option String :=
  ({ e with containers := e.containers.filter (· ≠ id) }, none)

/-- `Docker.Destroy` (docker.go lines 226-228): forwards the engine's
force-remove result unchanged. -/
def destroy (e : Engine) (id : String) : Engine × Option String :=
  forceRemove e id

/-- The engine's plain (non-forced) `ContainerRemove` as called on
Commit's normal removal path (docker.go line 126); `res = none` means the
engine removed the container, `res = some err` that the call failed and
the container is still present. -/
def plainRemove (e : Engine) (id : String) (res : Option String) : Engine × Option String :=
  match res with
  | none => ({ e with containers := e.containers.filter (· ≠ id) }, none)
  | some err => (e, some err)

/-- The hook step of `Docker.Commit` (docker.go lines 109-118): no hook
keeps the cache key; a failing hook aborts with its error; a successful
hook overrides the cache key only when its returned fingerprint is
non-empty. -/
def hookKey (hook : Option (String → Except String String)) (id ck : String) :
    Except String String :=
  match hook with
  | none => Except.ok ck
  | some h =>
    match h id with
    | Except.error e => Except.error e
    | Except.ok tmp => Except.ok (if tmp ≠ "" then tmp else ck)

/-- Externally decided outcomes of the engine calls Commit makes: which
container id `ContainerCreate` returns (or its error), which image id
`ContainerCommit` returns (or its error), and whether the plain
`ContainerRemove` on the normal path fails. -/
structure CommitScript where
  createRes : Except String String
  commitRes : Except String String
  removeErr : Option String

/-- `Docker.Commit` (docker.go lines 88-134).  Mirrors the Go control
flow: create; on every later exit path the deferred `Destroy` runs (the
interrupt listener is the same force-remove fired early and is idempotent
with it); hook; `ContainerCommit` stamping the (possibly overridden)
fingerprint as the image comment; plain remove, whose failure is fatal;
only then is `Config.Image` updated.  Returns the updated executor, the
error result, and the final engine state. -/
def commit (d : Docker) (e : Engine) (ck : String)
    (hook : Option (String → Except String String)) (s : CommitScript) :
    Docker × Option String × Engine :=
  match s.createRes with
  | Except.error err => (d, some err, e)
  | Except.ok id =>
    let e1 : Engine := { e with containers := id :: e.containers }
    match hookKey hook id ck with
    | Except.error err => (d, some err, (destroy e1 id).1)
    | Except.ok key =>
      match s.commitRes with
      | Except.error err =>
          (d, some ("Error during commit: " ++ err), (destroy e1 id).1)
      | Except.ok imgId =>
        let e2 : Engine :=
          { e1 with images :=
              { id := imgId, parentID := d.config.image, comment := key,
                cfg := d.config.container } :: e1.images }
        match plainRemove e2 id s.removeErr with
        | (_, some err) =>
            (d, some ("Could not remove intermediate container \"" ++ id ++ "\": " ++ err),
              (destroy e2 id).1)
        | (e3, none) =>
            ({ d with config := { d.config with image := imgId } }, none, (destroy e3 id).1)

/-- Externally decided outcomes of the engine calls `RunHook` makes:
`ContainerAttach`, the terminal raw-mode switch (consulted only when stdin
forwarding is on), `ContainerStart`, and `ContainerWait`, which on success
yields the process exit status. -/
structure RunHookScript where
  attachRes : Except String Unit
  rawRes : Except String Unit
  startRes : Except String Unit
  waitRes : Except String Int

/-- `Docker.RunHook` (docker.go lines 505-593), its sequential error
skeleton: attach, optional raw-terminal switch, start, wait; a non-zero
exit status becomes an error naming the status and the quoted container
id; zero exit returns no error and the empty fingerprint override.  The
background copy loops and listeners affect only streams, not the return
value, and are not modelled. -/
def runHook (d : Docker) (id : String) (s : RunHookScript) : Except String String :=
  match s.attachRes with
  | Except.error e => Except.error ("Could not attach to container: " ++ e)
  | Except.ok _ =>
    match (if d.stdin then s.rawRes else Except.ok ()) with
    | Except.error e => Except.error ("Could not attach terminal to container: " ++ e)
    | Except.ok _ =>
      match s.startRes with
      | Except.error e => Except.error ("Could not start container: " ++ e)
      | Except.ok _ =>
        match s.waitRes with
        | Except.error e => Except.error e
        | Except.ok stat =>
          if stat ≠ 0 then
            Except.error ("Command exited with status " ++ toString stat ++
              " for container \"" ++ id ++ "\"")
          else Except.ok ""

/-- A JSON value as built by the Go literals that `CopyToContainer`
marshals (only strings, arrays and objects occur there). -/
inductive Json where
  | str : String → Json
  | arr : List Json → Json
  | obj : List (String × Json) → Json
deriving Repr

mutual

/-- `json.Marshal` of the values occurring in `CopyToContainer`: strings
quoted (none of the marshalled strings needs escaping), arrays and objects
comma-separated; Go marshals maps with sorted keys, which the `obj` field
lists reproduce. -/
def Json.render : Json → String
  | Json.str s => "\"" ++ s ++ "\""
  | Json.arr xs => "[" ++ Json.renderArr xs ++ "]"
  | Json.obj fs => "\x7b" ++ Json.renderObj fs ++ "\x7d"

def Json.renderArr : List Json → String
  | [] => ""
  | [x] => Json.render x
  | x :: y :: rest => Json.render x ++ "," ++ Json.renderArr (y :: rest)

def Json.renderObj : List (String × Json) → String
  | [] => ""
  | [(k, v)] => "\"" ++ k ++ "\":" ++ Json.render v
  | (k, v) :: f :: rest => "\"" ++ k ++ "\":" ++ Json.render v ++ "," ++ Json.renderObj (f :: rest)

end

/-- The `repositories` value of docker.go lines 260-262:
`{ id: { "latest": id } }`. -/
def reposJson (id : String) : Json :=
  Json.obj [(id, Json.obj [("latest", Json.str id)])]

/-- The `manifest` value of docker.go lines 264-268: a one-element list
with the config blob name, the repo tags and the layer list (keys in the
sorted order `json.Marshal` emits for a Go map). -/
def manifestJson (id : String) : Json :=
  Json.arr [Json.obj [("Config", Json.str (id ++ ".json")),
                      ("Layers", Json.arr [Json.str (id ++ "/layer.tar")]),
                      ("RepoTags", Json.arr [Json.str id])]]

/-- One member of the emitted tar stream: the header's name and linkname,
the size the header declares, and the payload bytes written after it. -/
structure TarMember where
  name : String
  linkname : String
  declaredSize : Nat
  payload : String
deriving DecidableEq, Repr

/-- The three tar members `CopyToContainer` writes (docker.go lines
315-402), in order; each header's `Size` is `len(content)` of the payload
written right after it.  `imageContent` stands for the marshalled
`d.config.ToImage([id])` blob (`config` package, outside the verified
sources); its bytes are passed through unchanged. -/
def archiveMembers (id : String) (imageContent : String) : List TarMember :=
  let jsonFile := id ++ ".json"
  [⟨jsonFile, jsonFile, imageContent.length, imageContent⟩,
   ⟨"repositories", "repositories", (Json.render (reposJson id)).length,
     Json.render (reposJson id)⟩,
   ⟨"manifest.json", "manifest.json", (Json.render (manifestJson id)).length,
     Json.render (manifestJson id)⟩]

/-- One line of the import call's `\r\n`-delimited response, as
`json.Unmarshal` sees it: either it fails to parse (carrying the unmarshal
error text) or it is a JSON object with its fields. -/
inductive LineParse where
  | malformed : String → LineParse
  | obj : List (String × Json) → LineParse

/-- The `error` field probe of docker.go line 305:
`result["error"].(string)` — only a present, string-valued `error` field
counts. -/
def lineError (fs : List (String × Json)) : Option String :=
  match fs.lookup "error" with
  | some (Json.str s) => some s
  | _ => none

/-- `lineError` lifted to a response line; a line that failed to parse
carries no `error` field. -/
def lineErrorOf : LineParse → Option String
  | LineParse.malformed _ => none
  | LineParse.obj fs => lineError fs

/-- The response-scanning loop of docker.go lines 295-309: first
unparseable line or first string-valued `error` field wins. -/
def scanLines : List LineParse → Option String
  | [] => none
  | LineParse.malformed msg :: _ => some msg
  | LineParse.obj fs :: rest =>
    match lineError fs with
    | some res => some res
    | none => scanLines rest

/-- The import goroutine's result (docker.go lines 284-313): a transport
error from `ImageImport` is returned as-is; on transport success the
response body is scanned line by line. -/
def engineImportResult (transport : Except String Unit) (lines : List LineParse) :
    Option String :=
  match transport with
  | Except.error e => some e
  | Except.ok _ => scanLines lines

/-- What the spool file saw: the stream bytes copied into it (docker.go
line 248) and whether the deferred `os.Remove` ran. -/
structure SpoolTrace where
  written : String
  removed : Bool
deriving DecidableEq, Repr

/-- The observable outcome of `CopyToContainer`: the executor after the
call, its error result, the tar members emitted into the pipe, and the
spool-file trace. -/
structure BuildResult where
  exec : Docker
  err : Option String
  members : List TarMember
  spool : SpoolTrace
deriving DecidableEq, Repr

/-- `Docker.CopyToContainer` (docker.go lines 239-462): the content stream
is spooled to a temp file that the deferred `os.Remove` deletes; the three
members are emitted; the import result decides the error, and only on
success does `Config.Image` become `id`.  The block that would have added
`<id>/layer.tar` from the spool file is commented out in the source
(lines 404-453), so the spool is never read back and no member carries the
stream's bytes. -/
def copyToContainer (d : Docker) (id : String) (stream : String) (imageContent : String)
    (transport : Except String Unit) (lines : List LineParse) : BuildResult :=
  let members := archiveMembers id imageContent
  let spool : SpoolTrace := ⟨stream, true⟩
  match engineImportResult transport lines with
  | some e => ⟨d, some e, members, spool⟩
  | none => ⟨{ d with config := { d.config with image := id } }, none, members, spool⟩

theorem cacheScan_eq_some {imgs : List ImageRecord} {parent ck : String} {img : ImageRecord}
    (h : cacheScan imgs parent ck = some img) :
    img ∈ imgs ∧ img.parentID = parent ∧ img.comment = ck := by
  induction imgs with
  | nil => simp [cacheScan] at h
  | cons a rest ih =>
    by_cases hp : a.parentID = parent
    · by_cases hc : a.comment = ck
      · simp [cacheScan, hp, hc] at h
        subst h
        exact ⟨List.mem_cons_self a rest, hp, hc⟩
      · simp [cacheScan, hp, hc] at h
        rcases ih h with ⟨hm, h1, h2⟩
        exact ⟨List.mem_cons_of_mem a hm, h1, h2⟩
    · simp [cacheScan, hp] at h
      rcases ih h with ⟨hm, h1, h2⟩
      exact ⟨List.mem_cons_of_mem a hm, h1, h2⟩

theorem cacheScan_eq_none {imgs : List ImageRecord} {parent ck : String}
    (h : cacheScan imgs parent ck = none) :
    ∀ img ∈ imgs, ¬(img.parentID = parent ∧ img.comment = ck) := by
  induction imgs with
  | nil => intro img hm; simp at hm
  | cons a rest ih =>
    intro img hm
    by_cases hp : a.parentID = parent
    · by_cases hc : a.comment = ck
      · simp [cacheScan, hp, hc] at h
      · simp [cacheScan, hp, hc] at h
        rcases List.mem_cons.mp hm with rfl | hm'
        · rintro ⟨_, h2⟩; exact hc h2
        · exact ih h img hm'
    · simp [cacheScan, hp] at h
      rcases List.mem_cons.mp hm with rfl | hm'
      · rintro ⟨h1, _⟩; exact hp h1
      · exact ih h img hm'

/-- Claim C1: `CheckCache(F)` returns hit iff caching is enabled, the
session has a non-empty resulting image `I`, and some engine-listed image
has parent `I` and comment `F`; on hit the matched image's id becomes the
resulting image and its recorded config is merged into the build state;
on miss (including caching disabled or empty `I`) it returns false with
the build state unchanged. -/
theorem checkCache_spec (d : Docker) (ck : String) (images : List ImageRecord) :
    ((checkCache d ck images).1 = true ↔
      d.useCache = true ∧ d.config.image ≠ "" ∧
        ∃ img ∈ images, img.parentID = d.config.image ∧ img.comment = ck)
    ∧ ((checkCache d ck images).1 = true →
        ∃ img ∈ images, img.parentID = d.config.image ∧ img.comment = ck ∧
          (checkCache d ck images).2 =
            { d with config := { (d.config.fromDocker img.cfg) with image := img.id } })
    ∧ ((checkCache d ck images).1 = false → (checkCache d ck images).2 = d) := by
  cases hu : d.useCache with
  | false =>
    have heq : checkCache d ck images = (false, d) := by
      simp [checkCache, hu]
    rw [heq]
    refine ⟨?_, ?_, ?_⟩
    · simp [hu]
    · simp
    · intro _; rfl
  | true =>
    by_cases hi : d.config.image = ""
    · have heq : checkCache d ck images = (false, d) := by
        simp [checkCache, hu, hi]
      rw [heq]
      refine ⟨?_, ?_, ?_⟩
      · constructor
        · intro h; exact absurd h (by simp)
        · rintro ⟨_, hne, _⟩; exact absurd hi hne
      · simp
      · intro _; rfl
    · cases hscan : cacheScan images d.config.image ck with
      | some img =>
        rcases cacheScan_eq_some hscan with ⟨hm, h1, h2⟩
        have heq : checkCache d ck images =
            (true, { d with config := { (d.config.fromDocker img.cfg) with image := img.id } }) := by
          simp [checkCache, hu, hi, hscan]
        rw [heq]
        refine ⟨?_, ?_, ?_⟩
        · constructor
          · intro _; exact ⟨by simp [hu], hi, img, hm, h1, h2⟩
          · intro _; rfl
        · intro _; refine ⟨img, hm, h1, h2, ?_⟩; simp [hu]
        · intro h; exact absurd h (by simp)
      | none =>
        have hnone := cacheScan_eq_none hscan
        have heq : checkCache d ck images = (false, d) := by
          simp [checkCache, hu, hi, hscan]
        rw [heq]
        refine ⟨?_, ?_, ?_⟩
        · constructor
          · intro h; exact absurd h (by simp)
          · rintro ⟨_, _, img, hm, h1, h2⟩
            exact absurd ⟨h1, h2⟩ (hnone img hm)
        · simp
        · intro _; rfl

/-- Claim C1 witness: spec scenario (b) — session with resulting image
`"abc"` and one engine image with parent `"abc"` and comment
`"run echo hi"` hits the cache. -/
theorem checkCache_spec_witness :
    (checkCache ⟨true, false, false, ⟨"abc", ⟨[], [], "", []⟩⟩⟩ "run echo hi"
      [⟨"i1", "abc", "run echo hi", ⟨["A=1"], ["echo", "hi"], "/", []⟩⟩]).1 = true :=
  ((checkCache_spec ⟨true, false, false, ⟨"abc", ⟨[], [], "", []⟩⟩⟩ "run echo hi"
      [⟨"i1", "abc", "run echo hi", ⟨["A=1"], ["echo", "hi"], "/", []⟩⟩]).1).mpr
    ⟨rfl, by decide, ⟨"i1", "abc", "run echo hi", ⟨["A=1"], ["echo", "hi"], "/", []⟩⟩,
      by simp, rfl, rfl⟩

/-- Claim C3: destroying an id that is not a live container succeeds, and
a second `Destroy` of the same id after a first one also succeeds (the
engine's force-remove, modelled per the spec's engine contract, tolerates
absence; `Destroy` forwards its result unchanged). -/
theorem destroy_absent_ok (e : Engine) (id : String) (_h : id ∉ e.containers) :
    (destroy e id).2 = none ∧
    (destroy (destroy e id).1 id).2 = none ∧
    id ∉ (destroy e id).1.containers := by
  refine ⟨rfl, rfl, ?_⟩
  simp [destroy, forceRemove]

/-- Claim C3 witness: destroying the absent id `"c2"` twice errors
neither time. -/
theorem destroy_absent_ok_witness :
    (destroy ⟨["c1"], []⟩ "c2").2 = none ∧
    (destroy (destroy ⟨["c1"], []⟩ "c2").1 "c2").2 = none ∧
    "c2" ∉ (destroy ⟨["c1"], []⟩ "c2").1.containers :=
  destroy_absent_ok ⟨["c1"], []⟩ "c2" (by decide)

/-- Claim C2: if the hook, the engine commit, or the normal-path container
removal fails, `Commit` returns that error (the latter two wrapped with
their context strings) and the resulting image is unchanged; only when all
of them succeed does the resulting image become the newly committed image
id, which the engine records with the (possibly hook-overridden)
fingerprint as its comment. -/
theorem commit_spec (d : Docker) (e : Engine) (ck : String)
    (hook : Option (String → Except String String)) (s : CommitScript) :
    ((commit d e ck hook s).2.1 ≠ none → (commit d e ck hook s).1 = d)
    ∧ ((commit d e ck hook s).2.1 = none →
        ∃ cid imgId key, s.createRes = Except.ok cid ∧
          hookKey hook cid ck = Except.ok key ∧
          s.commitRes = Except.ok imgId ∧ s.removeErr = none ∧
          (commit d e ck hook s).1 = { d with config := { d.config with image := imgId } } ∧
          { id := imgId, parentID := d.config.image, comment := key,
            cfg := d.config.container } ∈ (commit d e ck hook s).2.2.images)
    ∧ (∀ cid er, s.createRes = Except.ok cid → hookKey hook cid ck = Except.error er →
        (commit d e ck hook s).2.1 = some er)
    ∧ (∀ cid key er, s.createRes = Except.ok cid → hookKey hook cid ck = Except.ok key →
        s.commitRes = Except.error er →
        (commit d e ck hook s).2.1 = some ("Error during commit: " ++ er))
    ∧ (∀ cid key imgId er, s.createRes = Except.ok cid →
        hookKey hook cid ck = Except.ok key →
        s.commitRes = Except.ok imgId → s.removeErr = some er →
        (commit d e ck hook s).2.1 =
          some ("Could not remove intermediate container \"" ++ cid ++ "\": " ++ er)) := by
  rcases s with ⟨cr, co, re⟩
  cases cr with
  | error err =>
    refine ⟨fun _ => rfl, ?_, ?_, ?_, ?_⟩
    · intro h; simp [commit] at h
    · intro cid er hc; simp at hc
    · intro cid key er hc; simp at hc
    · intro cid key imgId er hc; simp at hc
  | ok id =>
    cases hk : hookKey hook id ck with
    | error herr =>
      refine ⟨?_, ?_, ?_, ?_, ?_⟩
      · intro _; simp [commit, hk]
      · intro h; simp [commit, hk] at h
      · intro cid er hc hh
        cases hc
        rw [hk] at hh
        cases hh
        simp [commit, hk]
      · intro cid key er hc hh
        cases hc
        rw [hk] at hh
        cases hh
      · intro cid key imgId er hc hh
        cases hc
        rw [hk] at hh
        cases hh
    | ok key =>
      cases co with
      | error cerr =>
        refine ⟨?_, ?_, ?_, ?_, ?_⟩
        · intro _; simp [commit, hk]
        · intro h; simp [commit, hk] at h
        · intro cid er hc hh
          cases hc
          rw [hk] at hh
          cases hh
        · intro cid key2 er hc hh hco
          cases hc
          rw [hk] at hh
          cases hh
          cases hco
          simp [commit, hk]
        · intro cid key2 imgId er hc hh hco
          cases hc
          rw [hk] at hh
          cases hh
          cases hco
      | ok imgId =>
        cases re with
        | some rerr =>
          refine ⟨?_, ?_, ?_, ?_, ?_⟩
          · intro _; simp [commit, hk, plainRemove]
          · intro h; simp [commit, hk, plainRemove] at h
          · intro cid er hc hh
            cases hc
            rw [hk] at hh
            cases hh
          · intro cid key2 er hc hh hco
            cases hc
            rw [hk] at hh
            cases hh
            cases hco
          · intro cid key2 imgId2 er hc hh hco hre
            cases hc
            rw [hk] at hh
            cases hh
            cases hco
            cases hre
            simp [commit, hk, plainRemove]
        | none =>
          refine ⟨?_, ?_, ?_, ?_, ?_⟩
          · intro h
            exfalso
            apply h
            simp [commit, hk, plainRemove]
          · intro _
            refine ⟨id, imgId, key, rfl, hk, rfl, rfl, ?_, ?_⟩
            · simp [commit, hk, plainRemove]
            · simp [commit, hk, plainRemove, destroy, forceRemove]
          · intro cid er hc hh
            cases hc
            rw [hk] at hh
            cases hh
          · intro cid key2 er hc hh hco
            cases hc
            rw [hk] at hh
            cases hh
            cases hco
          · intro cid key2 imgId2 er hc hh hco hre
            cases hc
            rw [hk] at hh
            cases hh
            cases hco
            cases hre

/-- Claim C2 witness: a failing engine commit surfaces as the wrapped
commit error. -/
theorem commit_spec_witness :
    (commit ⟨true, false, false, ⟨"base", ⟨[], [], "", []⟩⟩⟩ ⟨[], []⟩ "k" none
      ⟨Except.ok "c1", Except.error "boom", none⟩).2.1 =
      some ("Error during commit: " ++ "boom") :=
  (commit_spec ⟨true, false, false, ⟨"base", ⟨[], [], "", []⟩⟩⟩ ⟨[], []⟩ "k" none
      ⟨Except.ok "c1", Except.error "boom", none⟩).2.2.2.1 "c1" "k" "boom" rfl rfl rfl

/-- Claim C4: whatever the hook outcome (absent, failing, or succeeding
with any override) and whatever the commit and removal outcomes, the
container created at the start of `Commit` is no longer a live engine
container when `Commit` returns: the deferred `Destroy` (backed by the
interrupt listener's identical force-remove) runs on every post-create
path. -/
theorem commit_container_gone (d : Docker) (e : Engine) (ck : String)
    (hook : Option (String → Except String String)) (s : CommitScript) (cid : String)
    (h : s.createRes = Except.ok cid) :
    cid ∉ (commit d e ck hook s).2.2.containers := by
  rcases s with ⟨cr, co, re⟩
  cases h
  cases hk : hookKey hook cid ck with
  | error herr => simp [commit, hk, destroy, forceRemove]
  | ok key =>
    cases co with
    | error cerr => simp [commit, hk, destroy, forceRemove]
    | ok imgId =>
      cases re with
      | some rerr => simp [commit, hk, plainRemove, destroy, forceRemove]
      | none => simp [commit, hk, plainRemove, destroy, forceRemove]

/-- Claim C4 witness: after a hook-less commit with a failing removal, the
created container `"c1"` is gone. -/
theorem commit_container_gone_witness :
    "c1" ∉ (commit ⟨true, false, false, ⟨"base", ⟨[], [], "", []⟩⟩⟩ ⟨[], []⟩ "k" none
      ⟨Except.ok "c1", Except.ok "i1", some "rmfail"⟩).2.2.containers :=
  commit_container_gone ⟨true, false, false, ⟨"base", ⟨[], [], "", []⟩⟩⟩ ⟨[], []⟩ "k" none
    ⟨Except.ok "c1", Except.ok "i1", some "rmfail"⟩ "c1" rfl

/-- Claim C7: when the attach, raw-mode and start steps succeed and the
container's process exits with status `stat`, `RunHook` errors with a
message naming that exact status and the container id iff `stat` is
non-zero, and returns no error when `stat` is zero. -/
theorem runHook_exit (d : Docker) (id : String) (s : RunHookScript) (stat : Int)
    (ha : s.attachRes = Except.ok ()) (hr : d.stdin = true → s.rawRes = Except.ok ())
    (hs : s.startRes = Except.ok ()) (hw : s.waitRes = Except.ok stat) :
    (stat ≠ 0 → runHook d id s =
      Except.error ("Command exited with status " ++ toString stat ++
        " for container \"" ++ id ++ "\""))
    ∧ (stat = 0 → runHook d id s = Except.ok "") := by
  have hraw : (if d.stdin then s.rawRes else Except.ok ()) = Except.ok () := by
    cases hd : d.stdin with
    | false => simp
    | true => simp [hr hd]
  constructor
  · intro hnz
    simp [runHook, ha, hraw, hs, hw, hnz]
  · intro hz
    simp [runHook, ha, hraw, hs, hw, hz]

/-- Claim C7 witness: spec scenario (e) — a process exiting with status 2
yields an error naming status 2 and the container id, and a zero exit
yields no error. -/
theorem runHook_exit_witness :
    (runHook ⟨true, false, false, ⟨"base", ⟨[], [], "", []⟩⟩⟩ "c9"
        ⟨Except.ok (), Except.ok (), Except.ok (), Except.ok 2⟩ =
      Except.error ("Command exited with status " ++ toString (2 : Int) ++
        " for container \"" ++ "c9" ++ "\""))
    ∧ (runHook ⟨true, false, false, ⟨"base", ⟨[], [], "", []⟩⟩⟩ "c0"
        ⟨Except.ok (), Except.ok (), Except.ok (), Except.ok 0⟩ = Except.ok "") :=
  ⟨(runHook_exit ⟨true, false, false, ⟨"base", ⟨[], [], "", []⟩⟩⟩ "c9"
      ⟨Except.ok (), Except.ok (), Except.ok (), Except.ok 2⟩ 2 rfl (fun h => by cases h)
      rfl rfl).1 (by decide),
   (runHook_exit ⟨true, false, false, ⟨"base", ⟨[], [], "", []⟩⟩⟩ "c0"
      ⟨Except.ok (), Except.ok (), Except.ok (), Except.ok 0⟩ 0 rfl (fun h => by cases h)
      rfl rfl).2 rfl⟩

theorem runHook_ok_empty (d : Docker) (id : String) (s : RunHookScript) {v : String}
    (h : runHook d id s = Except.ok v) : v = "" := by
  unfold runHook at h
  cases hA : s.attachRes with
  | error a => rw [hA] at h; simp at h
  | ok a =>
    rw [hA] at h
    cases hB : (if d.stdin then s.rawRes else Except.ok ()) with
    | error b => rw [hB] at h; simp at h
    | ok b =>
      rw [hB] at h
      cases hC : s.startRes with
      | error c => rw [hC] at h; simp at h
      | ok c =>
        rw [hC] at h
        cases hD : s.waitRes with
        | error w => rw [hD] at h; simp at h
        | ok stat =>
          rw [hD] at h
          by_cases hz : stat = 0
          · simp [hz] at h
            exact h.symm
          · simp [hz] at h

theorem commit_ok_shape (d : Docker) (e : Engine) (ck : String)
    (hook : Option (String → Except String String)) (s : CommitScript)
    (hnone : (commit d e ck hook s).2.1 = none) :
    ∃ cid imgId key, s.createRes = Except.ok cid ∧ hookKey hook cid ck = Except.ok key ∧
      s.commitRes = Except.ok imgId ∧ s.removeErr = none ∧
      (commit d e ck hook s).1 = { d with config := { d.config with image := imgId } } ∧
      { id := imgId, parentID := d.config.image, comment := key,
        cfg := d.config.container } ∈ (commit d e ck hook s).2.2.images := by
  rcases s with ⟨cr, co, re⟩
  cases cr with
  | error err => simp [commit] at hnone
  | ok id =>
    cases hk : hookKey hook id ck with
    | error herr => simp [commit, hk] at hnone
    | ok key =>
      cases co with
      | error cerr => simp [commit, hk] at hnone
      | ok imgId =>
        cases re with
        | some rerr => simp [commit, hk, plainRemove] at hnone
        | none =>
          refine ⟨id, imgId, key, rfl, hk, rfl, rfl, ?_, ?_⟩
          · simp [commit, hk, plainRemove]
          · simp [commit, hk, plainRemove, destroy, forceRemove]

/-- Claim C9: `RunHook` returns the empty string as its fingerprint
override on every successful path, and `Commit` adopts a hook override
only when it is non-empty; hence a `Commit` that uses `RunHook` as its
hook and succeeds records the caller-supplied fingerprint, unchanged, as
the committed image's comment. -/
theorem runHook_no_override (d : Docker) (e : Engine) (ck : String)
    (rs : String → RunHookScript) (cs : CommitScript) :
    (∀ i v, runHook d i (rs i) = Except.ok v → v = "")
    ∧ ((commit d e ck (some (fun i => runHook d i (rs i))) cs).2.1 = none →
        ∃ imgId, (commit d e ck (some (fun i => runHook d i (rs i))) cs).1 =
            { d with config := { d.config with image := imgId } } ∧
          { id := imgId, parentID := d.config.image, comment := ck,
            cfg := d.config.container } ∈
            (commit d e ck (some (fun i => runHook d i (rs i))) cs).2.2.images) := by
  refine ⟨fun i v h => runHook_ok_empty d i (rs i) h, ?_⟩
  intro hnone
  rcases commit_ok_shape d e ck (some (fun i => runHook d i (rs i))) cs hnone with
    ⟨cid, imgId, key, _, hkk, _, _, hres, hmem⟩
  have hkey : key = ck := by
    simp only [hookKey] at hkk
    cases hrh : runHook d cid (rs cid) with
    | error a => rw [hrh] at hkk; simp at hkk
    | ok v =>
      have hv : v = "" := runHook_ok_empty d cid (rs cid) hrh
      rw [hrh] at hkk
      subst hv
      simp at hkk
      exact hkk.symm
  subst hkey
  exact ⟨imgId, hres, hmem⟩

/-- Claim C9 witness: a successful commit whose hook is `RunHook` (process
exiting 0) records the caller's fingerprint `"fp"` verbatim as the
committed image's comment. -/
theorem runHook_no_override_witness :
    (⟨"i1", "base", "fp", ⟨[], [], "", []⟩⟩ : ImageRecord) ∈
      (commit ⟨true, false, false, ⟨"base", ⟨[], [], "", []⟩⟩⟩ ⟨[], []⟩ "fp"
        (some (fun i => runHook ⟨true, false, false, ⟨"base", ⟨[], [], "", []⟩⟩⟩ i
          ((fun _ => ⟨Except.ok (), Except.ok (), Except.ok (), Except.ok 0⟩ :
            String → RunHookScript) i)))
        ⟨Except.ok "c1", Except.ok "i1", none⟩).2.2.images := by
  obtain ⟨imgId, h1, h2⟩ :=
    (runHook_no_override ⟨true, false, false, ⟨"base", ⟨[], [], "", []⟩⟩⟩ ⟨[], []⟩ "fp"
      (fun _ => ⟨Except.ok (), Except.ok (), Except.ok (), Except.ok 0⟩)
      ⟨Except.ok "c1", Except.ok "i1", none⟩).2 rfl
  have h3 : (commit ⟨true, false, false, ⟨"base", ⟨[], [], "", []⟩⟩⟩ ⟨[], []⟩ "fp"
      (some (fun i => runHook ⟨true, false, false, ⟨"base", ⟨[], [], "", []⟩⟩⟩ i
        ((fun _ => ⟨Except.ok (), Except.ok (), Except.ok (), Except.ok 0⟩ :
          String → RunHookScript) i)))
      ⟨Except.ok "c1", Except.ok "i1", none⟩).1.config.image = "i1" := rfl
  have himg : imgId = "i1" :=
    (congrArg (fun x => x.config.image) h1).symm.trans h3
  subst himg
  exact h2

theorem scanLines_eq_none (lines : List LineParse) :
    scanLines lines = none ↔
      ∀ l ∈ lines, ∃ fs, l = LineParse.obj fs ∧ lineError fs = none := by
  induction lines with
  | nil => simp [scanLines]
  | cons a rest ih =>
    cases a with
    | malformed msg =>
      simp only [scanLines]
      constructor
      · intro h; cases h
      · intro h
        rcases h (LineParse.malformed msg) (List.mem_cons_self _ _) with ⟨fs, hfs, _⟩
        cases hfs
    | obj fs =>
      cases hle : lineError fs with
      | some res =>
        simp only [scanLines, hle]
        constructor
        · intro h; cases h
        · intro h
          rcases h (LineParse.obj fs) (List.mem_cons_self _ _) with ⟨fs2, hfs, hnone⟩
          cases hfs
          rw [hle] at hnone
          cases hnone
      | none =>
        simp only [scanLines, hle]
        constructor
        · intro h l hl
          rcases List.mem_cons.mp hl with rfl | hl'
          · exact ⟨fs, rfl, hle⟩
          · exact (ih.mp h) l hl'
        · intro h
          apply ih.mpr
          intro l hl
          exact h l (List.mem_cons_of_mem _ hl)

theorem engineImportResult_eq_none (transport : Except String Unit) (lines : List LineParse) :
    engineImportResult transport lines = none ↔
      transport = Except.ok () ∧
        ∀ l ∈ lines, ∃ fs, l = LineParse.obj fs ∧ lineError fs = none := by
  cases transport with
  | error e => simp [engineImportResult]
  | ok u =>
    cases u
    simpa [engineImportResult] using scanLines_eq_none lines

theorem copyToContainer_members_eq (d : Docker) (id stream imageContent : String)
    (transport : Except String Unit) (lines : List LineParse) :
    (copyToContainer d id stream imageContent transport lines).members =
      archiveMembers id imageContent := by
  cases hr : engineImportResult transport lines with
  | some e => simp [copyToContainer, hr]
  | none => simp [copyToContainer, hr]

/-- Claim C5: for every id and config snapshot, the emitted archive has
exactly three members written in the order `<id>.json`, `repositories`,
`manifest.json`, each header's declared size equal to its payload's actual
byte length, where `repositories` encodes `{id: {"latest": id}}` and
`manifest.json` encodes a one-element list whose `Config` is `<id>.json`
and whose `RepoTags` list is `[id]`. -/
theorem copyToContainer_members (d : Docker) (id stream imageContent : String)
    (transport : Except String Unit) (lines : List LineParse) :
    ((copyToContainer d id stream imageContent transport lines).members.length = 3)
    ∧ ((copyToContainer d id stream imageContent transport lines).members.map
        (fun m => m.name) = [id ++ ".json", "repositories", "manifest.json"])
    ∧ (∀ m ∈ (copyToContainer d id stream imageContent transport lines).members,
        m.declaredSize = m.payload.length)
    ∧ ((copyToContainer d id stream imageContent transport lines).members.map
        (fun m => m.payload) =
        [imageContent,
         Json.render (Json.obj [(id, Json.obj [("latest", Json.str id)])]),
         Json.render (Json.arr [Json.obj [("Config", Json.str (id ++ ".json")),
           ("Layers", Json.arr [Json.str (id ++ "/layer.tar")]),
           ("RepoTags", Json.arr [Json.str id])]])]) := by
  rw [copyToContainer_members_eq]
  refine ⟨rfl, rfl, ?_, rfl⟩
  intro m hm
  simp [archiveMembers] at hm
  rcases hm with rfl | rfl | rfl <;> rfl

/-- Claim C5 witness: the archive for id `"img1"` lists its three members
in the fixed order. -/
theorem copyToContainer_members_witness :
    (copyToContainer ⟨true, false, false, ⟨"", ⟨[], [], "", []⟩⟩⟩ "img1" "" "cfg"
        (Except.ok ()) []).members.map (fun m => m.name) =
      ["img1" ++ ".json", "repositories", "manifest.json"] :=
  (copyToContainer_members ⟨true, false, false, ⟨"", ⟨[], [], "", []⟩⟩⟩ "img1" "" "cfg"
    (Except.ok ()) []).2.1

/-- Claim C6 counterexample: transport succeeds and the single response
line carries no `error` field (it fails to parse at all, as the empty line
after a trailing CRLF does), yet `CopyToContainer` returns an error — so
"error exactly when transport fails or some line carries an `error`
field" is false as stated. -/
theorem copyToContainer_import_cex :
    (copyToContainer ⟨true, false, false, ⟨"", ⟨[], [], "", []⟩⟩⟩ "img1" "" "cfg"
        (Except.ok ()) [LineParse.malformed "unexpected end of JSON input"]).err =
      some "unexpected end of JSON input"
    ∧ [LineParse.malformed "unexpected end of JSON input"].map lineErrorOf = [none] :=
  ⟨rfl, rfl⟩

/-- Claim C6 (amended): `Build` returns an error exactly when the
transport-level call fails, some response line fails to unmarshal as JSON
(its unmarshal error becoming the result), or some parsed line carries a
string-valued `error` field (whose text becomes the error); when the
transport succeeds, every line parses and none carries an `error` field,
`Build` succeeds and the resulting image becomes `id`. -/
theorem copyToContainer_import (d : Docker) (id stream imageContent : String)
    (transport : Except String Unit) (lines : List LineParse) :
    ((copyToContainer d id stream imageContent transport lines).err = none ↔
      transport = Except.ok () ∧
        ∀ l ∈ lines, ∃ fs, l = LineParse.obj fs ∧ lineError fs = none)
    ∧ ((copyToContainer d id stream imageContent transport lines).err = none →
        (copyToContainer d id stream imageContent transport lines).exec =
          { d with config := { d.config with image := id } })
    ∧ ((copyToContainer d id stream imageContent transport lines).err ≠ none →
        (copyToContainer d id stream imageContent transport lines).exec = d)
    ∧ (copyToContainer d id stream imageContent transport lines).err =
        engineImportResult transport lines := by
  have herr : (copyToContainer d id stream imageContent transport lines).err =
      engineImportResult transport lines := by
    cases hr : engineImportResult transport lines with
    | some e => simp [copyToContainer, hr]
    | none => simp [copyToContainer, hr]
  refine ⟨?_, ?_, ?_, herr⟩
  · rw [herr]; exact engineImportResult_eq_none transport lines
  · intro h
    rw [herr] at h
    simp [copyToContainer, h]
  · intro h
    rw [herr] at h
    cases hr : engineImportResult transport lines with
    | some e => simp [copyToContainer, hr]
    | none => exact absurd hr h

/-- Claim C6 witness (amended claim): a clean progress line imports
successfully and the resulting image becomes the id. -/
theorem copyToContainer_import_witness :
    (copyToContainer ⟨true, false, false, ⟨"", ⟨[], [], "", []⟩⟩⟩ "img1" "" "cfg"
        (Except.ok ()) [LineParse.obj [("status", Json.str "Importing")]]).exec.config.image =
      "img1" := by
  have h := (copyToContainer_import ⟨true, false, false, ⟨"", ⟨[], [], "", []⟩⟩⟩ "img1" "" "cfg"
      (Except.ok ()) [LineParse.obj [("status", Json.str "Importing")]]).2.1 rfl
  rw [h]

theorem layer_name_ne (id : String) :
    id ++ "/layer.tar" ≠ id ++ ".json" ∧ id ++ "/layer.tar" ≠ "repositories" ∧
      id ++ "/layer.tar" ≠ "manifest.json" := by
  refine ⟨?_, ?_, ?_⟩
  · intro h
    have hl := congrArg String.length h
    rw [String.length_append, String.length_append] at hl
    have h10 : "/layer.tar".length = 10 := rfl
    have h5 : ".json".length = 5 := rfl
    rw [h10, h5] at hl
    omega
  · intro h
    have hd := congrArg String.data h
    rw [String.data_append] at hd
    have hmem : '/' ∈ id.data ++ "/layer.tar".data :=
      List.mem_append_right _ (by decide)
    rw [hd] at hmem
    exact absurd hmem (by decide)
  · intro h
    have hd := congrArg String.data h
    rw [String.data_append] at hd
    have hmem : '/' ∈ id.data ++ "/layer.tar".data :=
      List.mem_append_right _ (by decide)
    rw [hd] at hmem
    exact absurd hmem (by decide)

/-- Claim C10: the content stream never reaches the emitted archive — the
executor, error and members of `CopyToContainer` are the same for any two
streams; the spool file receives the stream's bytes and is removed; no
member is named `<id>/layer.tar` even though the manifest's layer list
names it. -/
theorem copyToContainer_stream_unused (d : Docker) (id s1 s2 imageContent : String)
    (transport : Except String Unit) (lines : List LineParse) :
    ((copyToContainer d id s1 imageContent transport lines).exec =
        (copyToContainer d id s2 imageContent transport lines).exec
      ∧ (copyToContainer d id s1 imageContent transport lines).err =
        (copyToContainer d id s2 imageContent transport lines).err
      ∧ (copyToContainer d id s1 imageContent transport lines).members =
        (copyToContainer d id s2 imageContent transport lines).members)
    ∧ (copyToContainer d id s1 imageContent transport lines).spool = ⟨s1, true⟩
    ∧ (id ++ "/layer.tar") ∉
        (copyToContainer d id s1 imageContent transport lines).members.map (fun m => m.name)
    ∧ Json.render (manifestJson id) ∈
        (copyToContainer d id s1 imageContent transport lines).members.map (fun m => m.payload)
    ∧ manifestJson id = Json.arr [Json.obj [("Config", Json.str (id ++ ".json")),
        ("Layers", Json.arr [Json.str (id ++ "/layer.tar")]),
        ("RepoTags", Json.arr [Json.str id])]] := by
  have hne := layer_name_ne id
  refine ⟨?_, ?_, ?_, ?_, rfl⟩
  · cases hr : engineImportResult transport lines with
    | some e => refine ⟨?_, ?_, ?_⟩ <;> simp [copyToContainer, hr]
    | none => refine ⟨?_, ?_, ?_⟩ <;> simp [copyToContainer, hr]
  · cases hr : engineImportResult transport lines with
    | some e => simp [copyToContainer, hr]
    | none => simp [copyToContainer, hr]
  · rw [copyToContainer_members_eq]
    simp [archiveMembers]
    exact ⟨hne.1, hne.2.1, hne.2.2⟩
  · rw [copyToContainer_members_eq]
    simp [archiveMembers]

/-- Claim C10 witness: for id `"img1"` no archive member is named
`img1/layer.tar`. -/
theorem copyToContainer_stream_unused_witness :
    ("img1" ++ "/layer.tar") ∉
      (copyToContainer ⟨true, false, false, ⟨"", ⟨[], [], "", []⟩⟩⟩ "img1" "s" "cfg"
        (Except.ok ()) []).members.map (fun m => m.name) :=
  (copyToContainer_stream_unused ⟨true, false, false, ⟨"", ⟨[], [], "", []⟩⟩⟩ "img1" "s" "s2"
    "cfg" (Except.ok ()) []).2.2.1
